import Mathlib

/-!
Verification of the TalentScout hiring-assistant program (`tes1.py`).

The Python program is shallowly embedded: Python `dict`s of string fields
become association lists (`PyDict`), mutation of a fresh copy becomes a
functional update, the simulated database file becomes an explicit
`FileState` value threaded through `save_simulated`, and the wall clock
(`datetime.utcnow().isoformat()`) becomes an explicit `now` argument.
Python standard-library behaviour used by the program (`str.strip`,
`str.lower`, the `in` substring test, `re.split` for the one fixed
pattern, `json.loads` / `json.dumps`) is modelled by executable Lean
functions over `List Char`, with ASCII semantics for character classes.
-/

set_option maxRecDepth 8000

/-- A Python dict with string keys and values a of type `α`, as an
insertion-ordered association list with (in all reachable states) unique
keys. -/
abbrev PyAssoc (α : Type) := List (String × α)

/-- A candidate record: a Python dict with string keys and string values. -/
abbrev PyDict := PyAssoc String

/-- Python `d[k]` / `d.get(k)`: value at the first occurrence of key `k`. -/
def lookupVal {α : Type} (k : String) : PyAssoc α → Option α
  | [] => none
  | p :: rest => if p.1 = k then some p.2 else lookupVal k rest

/-- Python `d[k] = v`: replace the value at the first occurrence of `k`,
keeping its position, or append `(k, v)` when the key is absent. -/
def setKey {α : Type} (k : String) (v : α) : PyAssoc α → PyAssoc α
  | [] => [(k, v)]
  | p :: rest => if p.1 = k then (k, v) :: rest else p :: setKey k v rest

/-- Python `d.get(k, deflt)`. -/
def getDefault {α : Type} (d : PyAssoc α) (k : String) (deflt : α) : α :=
  match lookupVal k d with
  | some v => v
  | none => deflt

/-- `anonymize_candidate`: copy the record and overwrite `email` and
`phone` with the fixed marker. The Python code mutates a fresh
`candidate.copy()`, so the caller's record is untouched; the embedding is
pure, which makes that non-mutation intrinsic. -/
def anonymize_candidate (candidate : PyDict) : PyDict :=
  setKey "phone" "***redacted***" (setKey "email" "***redacted***" candidate)

/-- One element of the persisted list:
`{"timestamp": now + "Z", "candidate": anonym}`. -/
structure SavedRecord where
  timestamp : String
  candidate : PyDict
deriving DecidableEq

/-- State of the simulated database file: absent, present but not readable
as JSON, or a readable JSON list of records (the only shapes the program
itself ever writes). -/
inductive FileContent
  | corrupt
  | valid (entries : List SavedRecord)
deriving DecidableEq

/-- `none` models a missing file (`os.path.exists` false). -/
abbrev FileState := Option FileContent

/-- `save_simulated`: anonymize, wrap with the timestamp (`now` models
`datetime.utcnow().isoformat()`; the code appends `"Z"`), read the current
list treating a missing or unreadable file as `[]`, append, and write. -/
def save_simulated (candidate : PyDict) (now : String) (fs : FileState) : FileState :=
  let anonym := anonymize_candidate candidate
  let record : SavedRecord := ⟨now ++ "Z", anonym⟩
  let data : List SavedRecord :=
    match fs with
    | none => []
    | some FileContent.corrupt => []
    | some (FileContent.valid l) => l
  some (FileContent.valid (data ++ [record]))

/-- Sequential saves: each pair is a candidate together with the
`utcnow().isoformat()` string observed at its save. -/
def saveAll (ps : List (PyDict × String)) (fs : FileState) : FileState :=
  ps.foldl (fun s p => save_simulated p.1 p.2 s) fs

/-- Characters stripped by Python `str.strip()` (ASCII model). -/
def isPySpace (c : Char) : Bool :=
  c = ' ' || c = '\t' || c = '\n' || c = '\r' || c = '\x0b' || c = '\x0c'

/-- Python `str.strip()` on a character list. -/
def pyStrip (l : List Char) : List Char :=
  ((l.dropWhile isPySpace).reverse.dropWhile isPySpace).reverse

/-- `sanitize_text`: `s.strip()`. -/
def sanitize_text (s : String) : String :=
  ⟨pyStrip s.data⟩

/-- Python `str.lower()` (ASCII model, via `Char.toLower`). -/
def pyLower (s : String) : String :=
  ⟨s.data.map Char.toLower⟩

/-- A delimiter character of the split pattern `[,\n/|]+`. -/
def isDelim (c : Char) : Bool :=
  c = ',' || c = '\n' || c = '/' || c = '|'

/-- A word character for the regex `\b` boundary (ASCII model of `\w`). -/
def wordChar (c : Char) : Bool :=
  c.isAlphanum || c = '_'

/-- Scanner for `re.split(r"[,\n/|]+|\band\b", raw, flags=re.IGNORECASE)`.
`prevW` records whether the character just before the current position is
a word character (false at the start of the string); `acc` holds the
current piece reversed. At each position the first alternative `[,\n/|]+`
is tried greedily, then `\band\b`; on no match the character joins the
current piece. Fuel bounds the recursion and exceeds what a full scan can
use. -/
def goSplit : Nat → Bool → List Char → List Char → List (List Char)
  | 0, _, acc, _ => [acc.reverse]
  | _ + 1, _, acc, [] => [acc.reverse]
  | fuel + 1, prevW, acc, c :: cs =>
    if isDelim c then
      acc.reverse :: goSplit fuel false [] (cs.dropWhile isDelim)
    else
      match cs with
      | c2 :: c3 :: cs2 =>
        if !prevW && c.toLower == 'a' && c2.toLower == 'n' && c3.toLower == 'd'
            && (match cs2 with | [] => true | r :: _ => !wordChar r) then
          acc.reverse :: goSplit fuel true [] cs2
        else
          goSplit fuel (wordChar c) (c :: acc) cs
      | _ => goSplit fuel (wordChar c) (c :: acc) cs

/-- All pieces produced by the split regex, in order. -/
def pyReSplit (l : List Char) : List (List Char) :=
  goSplit (l.length + 1) false [] l

/-- `split_tech_stack`: regex split, strip each piece, keep the truthy
(non-empty) ones, in order. -/
def split_tech_stack (raw : String) : List String :=
  ((pyReSplit raw.data).map (fun t => (⟨pyStrip t⟩ : String))).filter (fun s => s != "")

/-- `pat` is a prefix of the second list (helper for the substring test). -/
def listStartsWith : List Char → List Char → Bool
  | [], _ => true
  | _ :: _, [] => false
  | p :: ps, c :: cs => p == c && listStartsWith ps cs

/-- Python `pat in s` on strings: `pat` occurs contiguously in `s`. -/
def listHasSub (pat : List Char) : List Char → Bool
  | [] => listStartsWith pat []
  | c :: cs => listStartsWith pat (c :: cs) || listHasSub pat cs

/-- `FALLBACK_TEMPLATES`, in Python dict insertion order. -/
def FALLBACK_TEMPLATES : List (String × List String) :=
  [("python",
    ["Explain the difference between list and tuple in Python.",
     "How does Python’s garbage collection work?",
     "Write a simple function to remove duplicates from a list.",
     "Explain how to profile and optimize Python code."]),
   ("django",
    ["Explain Django’s request/response lifecycle.",
     "How do you define a many-to-many relationship in Django models?",
     "What are signals and when would you use them?",
     "How do you handle performance in Django ORM?"]),
   ("react",
    ["How does the virtual DOM in React improve performance?",
     "What’s the difference between state and props?",
     "Explain useEffect and useMemo hooks.",
     "How do you optimize large React applications?"]),
   ("sql",
    ["What’s the difference between clustered and non-clustered indexes?",
     "How would you remove duplicates from a SQL table?",
     "Explain transactions and isolation levels.",
     "How do you use EXPLAIN ANALYZE to optimize queries?"]),
   ("aws",
    ["What’s the difference between EC2, Lambda, and Fargate?",
     "Explain IAM and how to enforce least privilege.",
     "How do you design a fault-tolerant system on AWS?"])]

/-- The four generically templated questions (the `generic` list). -/
def genericQuestions (tech : String) : List String :=
  ["What are the main components of " ++ tech ++ "?",
   "How do you handle performance optimization in " ++ tech ++ "?",
   "What’s a common pitfall when using " ++ tech ++ "?",
   "Describe how you’d debug an issue in a " ++ tech ++ " project."]

/-- `fallback_generate_for_tech`: the Python for-loop over
`FALLBACK_TEMPLATES.items()` with an early `return qs[:n]` on the first
key with `key in tech.lower()`, else `generic[:n]`. -/
def fallback_generate_for_tech (tech : String) (n : Nat := 4) : List String :=
  match FALLBACK_TEMPLATES.find? (fun kv => listHasSub kv.1.data (pyLower tech).data) with
  | some kv => kv.2.take n
  | none => (genericQuestions tech).take n

/-- `deterministic_generate_questions`: the dict comprehension
`\x7btech: fallback_generate_for_tech(tech, n_per_tech) for tech in tech_list\x7d`,
as repeated dict insertion in list order. -/
def deterministic_generate_questions (tech_list : List String) (n_per_tech : Nat := 4) :
    PyAssoc (List String) :=
  tech_list.foldl (fun d tech => setKey tech (fallback_generate_for_tech tech n_per_tech) d) []

/-- `END_KEYWORDS` (a Python set; only membership is used, so order is
irrelevant). -/
def END_KEYWORDS : List String :=
  ["exit", "quit", "bye", "goodbye", "end", "stop"]

/-- The fixed farewell reply. -/
def farewellMessage : String :=
  "Thanks for chatting. We\x27ll be in touch soon!"

/-- The fixed help reply. -/
def helpMessage : String :=
  "I can regenerate questions, show your info, or end the chat. Try \x27regenerate\x27 or \x27exit\x27."

/-- The parts of `st.session_state` that `handle_followup` touches. -/
structure SessionState where
  candidate_info : PyDict
  last_questions : PyAssoc (List String)
deriving DecidableEq

/-- The question set rebuilt by the regenerate branch from the session's
raw tech-stack string. -/
def regenQuestions (st : SessionState) : PyAssoc (List String) :=
  deterministic_generate_questions
    (split_tech_stack (getDefault st.candidate_info "tech_stack_raw" "")) 4

/-- The multi-line listing returned by the regenerate branch
(`"\n".join(lines)` over the header, one `tech:` line per technology and
one indented `i. question` line per question, numbering from 1). -/
def regenListing (st : SessionState) : String :=
  String.intercalate "\n"
    ("Here are new questions:" ::
      (regenQuestions st).flatMap
        (fun p => (p.1 ++ ":") ::
          p.2.enum.map (fun iq => "  " ++ toString (iq.1 + 1) ++ ". " ++ iq.2)))

/-- Lower-case hex digit. -/
def hexDigit (n : Nat) : Char :=
  if n < 10 then Char.ofNat ('0'.toNat + n) else Char.ofNat ('a'.toNat + (n - 10))

/-- Four lower-case hex digits, for `\uXXXX` escapes. -/
def hex4 (n : Nat) : List Char :=
  [hexDigit (n / 4096 % 16), hexDigit (n / 256 % 16), hexDigit (n / 16 % 16), hexDigit (n % 16)]

/-- How `json.dumps` (default `ensure_ascii=True`) renders one character
of a string (model for characters in the basic plane; the named short
escapes cover the ones the program can produce). -/
def jsonEscapeChar (c : Char) : List Char :=
  if c = '"' then ['\\', '"']
  else if c = '\\' then ['\\', '\\']
  else if c = '\n' then ['\\', 'n']
  else if c = '\t' then ['\\', 't']
  else if c = '\r' then ['\\', 'r']
  else if c.toNat < 32 || c.toNat > 126 then '\\' :: 'u' :: hex4 c.toNat
  else [c]

/-- A JSON string literal as `json.dumps` renders it. -/
def jsonQuoteStr (s : String) : String :=
  ⟨'"' :: (s.data.flatMap jsonEscapeChar ++ ['"'])⟩

/-- `json.dumps(d, indent=2)` for a flat dict of string fields, as used by
the `show my info` branch. -/
def pyDumpsIndent2 (d : PyDict) : String :=
  match d with
  | [] => "\x7b\x7d"
  | _ => "\x7b\n  " ++
      String.intercalate ",\n  "
        (d.map (fun p => jsonQuoteStr p.1 ++ ": " ++ jsonQuoteStr p.2)) ++
      "\n\x7d"

/-- `handle_followup`: classify the lower-cased input in fixed priority
order (regenerate, then show-my-info, then termination keywords, then
help). Session-state reads and the one write (`last_questions`) are made
explicit; the returned pair is (reply, updated session state). -/
def handle_followup (st : SessionState) (text : String) : String × SessionState :=
  let text_l := pyLower text
  if listHasSub "regenerate".data text_l.data then
    (regenListing st, { st with last_questions := regenQuestions st })
  else if listHasSub "show my info".data text_l.data then
    (pyDumpsIndent2 (setKey "phone" "***" (setKey "email" "***" st.candidate_info)), st)
  else if END_KEYWORDS.any (fun k => listHasSub k.data text_l.data) then
    (farewellMessage, st)
  else
    (helpMessage, st)

/-- JSON values, for the model of `json.loads`. -/
inductive Json where
  | null
  | boolean (b : Bool)
  | int (n : Int)
  | str (s : String)
  | arr (elems : List Json)
  | obj (fields : List (String × Json))

/-- JSON insignificant whitespace. -/
def skipWs (l : List Char) : List Char :=
  l.dropWhile (fun c => c = ' ' || c = '\t' || c = '\n' || c = '\r')

/-- Value of a single escape character after a backslash. -/
def unescapeChar (e : Char) : Option Char :=
  if e = '"' then some '"'
  else if e = '\\' then some '\\'
  else if e = '/' then some '/'
  else if e = 'n' then some '\n'
  else if e = 't' then some '\t'
  else if e = 'r' then some '\r'
  else if e = 'b' then some '\x08'
  else if e = 'f' then some '\x0c'
  else none

/-- Is this an ASCII hex digit? -/
def isHexDig (c : Char) : Bool :=
  c.isDigit || ('a' ≤ c && c ≤ 'f') || ('A' ≤ c && c ≤ 'F')

/-- Numeric value of a hex digit. -/
def hexVal (c : Char) : Nat :=
  if c.isDigit then c.toNat - '0'.toNat
  else if 'a' ≤ c ∧ c ≤ 'f' then c.toNat - 'a'.toNat + 10
  else c.toNat - 'A'.toNat + 10

/-- Parse the body of a JSON string literal (after the opening quote),
returning the decoded characters and the input after the closing quote. -/
def parseStrAux : List Char → Option (List Char × List Char)
  | [] => none
  | '"' :: rest => some ([], rest)
  | '\\' :: 'u' :: h1 :: h2 :: h3 :: h4 :: rest =>
    if isHexDig h1 && isHexDig h2 && isHexDig h3 && isHexDig h4 then
      (parseStrAux rest).map (fun pr =>
        (Char.ofNat (((hexVal h1 * 16 + hexVal h2) * 16 + hexVal h3) * 16 + hexVal h4) :: pr.1,
         pr.2))
    else none
  | '\\' :: e :: rest =>
    match unescapeChar e with
    | some c => (parseStrAux rest).map (fun pr => (c :: pr.1, pr.2))
    | none => none
  | c :: rest =>
    if c.toNat < 32 then none
    else (parseStrAux rest).map (fun pr => (c :: pr.1, pr.2))

/-- Parse a JSON integer literal (model restriction: the fraction and
exponent forms of `json.loads` numbers are not modelled, so inputs using
them are rejected rather than read as floats). -/
def parseIntAux (l : List Char) : Option (Int × List Char) :=
  let neg : Bool := match l with | '-' :: _ => true | _ => false
  let l1 := match l with | '-' :: r => r | _ => l
  let ds := l1.takeWhile Char.isDigit
  let rest := l1.dropWhile Char.isDigit
  if ds = [] then none
  else
    match rest with
    | '.' :: _ => none
    | 'e' :: _ => none
    | 'E' :: _ => none
    | _ =>
      let n : Int := ds.foldl (fun a c => a * 10 + (c.toNat - '0'.toNat)) 0
      some (if neg then -n else n, rest)

mutual

/-- Parse one JSON value (model of `json.loads`); fuel bounds recursion
and exceeds what any input of the given length can use. -/
def parseVal : Nat → List Char → Option (Json × List Char)
  | 0, _ => none
  | fuel + 1, input =>
    match skipWs input with
    | '\x7b' :: rest =>
      match skipWs rest with
      | '\x7d' :: rest2 => some (Json.obj [], rest2)
      | _ => (parseMembers fuel rest []).map (fun pr => (Json.obj pr.1, pr.2))
    | '[' :: rest =>
      match skipWs rest with
      | ']' :: rest2 => some (Json.arr [], rest2)
      | _ => (parseElems fuel rest []).map (fun pr => (Json.arr pr.1, pr.2))
    | '"' :: rest => (parseStrAux rest).map (fun pr => (Json.str ⟨pr.1⟩, pr.2))
    | 't' :: 'r' :: 'u' :: 'e' :: rest => some (Json.boolean true, rest)
    | 'f' :: 'a' :: 'l' :: 's' :: 'e' :: rest => some (Json.boolean false, rest)
    | 'n' :: 'u' :: 'l' :: 'l' :: rest => some (Json.null, rest)
    | l => (parseIntAux l).map (fun pr => (Json.int pr.1, pr.2))

/-- Parse the members of a non-empty JSON object up to and including the
closing brace. -/
def parseMembers : Nat → List Char → List (String × Json) →
    Option (List (String × Json) × List Char)
  | 0, _, _ => none
  | fuel + 1, l, acc =>
    match skipWs l with
    | '"' :: rest =>
      match parseStrAux rest with
      | none => none
      | some (key, rest2) =>
        match skipWs rest2 with
        | ':' :: rest3 =>
          match parseVal fuel rest3 with
          | none => none
          | some (v, rest4) =>
            match skipWs rest4 with
            | ',' :: rest5 => parseMembers fuel rest5 (acc ++ [(⟨key⟩, v)])
            | '\x7d' :: rest5 => some (acc ++ [(⟨key⟩, v)], rest5)
            | _ => none
        | _ => none
    | _ => none

/-- Parse the elements of a non-empty JSON array up to and including the
closing bracket. -/
def parseElems : Nat → List Char → List Json → Option (List Json × List Char)
  | 0, _, _ => none
  | fuel + 1, l, acc =>
    match parseVal fuel l with
    | none => none
    | some (v, rest) =>
      match skipWs rest with
      | ',' :: rest2 => parseElems fuel rest2 (acc ++ [v])
      | ']' :: rest2 => some (acc ++ [v], rest2)
      | _ => none

end

/-- `json.loads` on a whole input: one value, then only whitespace. -/
def parseJsonTop (l : List Char) : Option Json :=
  match parseVal (l.length + 1) l with
  | some (v, rest) => if skipWs rest = [] then some v else none
  | none => none

/-- Python `s.find(c)`: index of the first occurrence, `-1` if absent. -/
def pyFindCharAux : List Char → Char → Nat → Int
  | [], _, _ => -1
  | x :: xs, c, i => if x = c then (i : Int) else pyFindCharAux xs c (i + 1)

/-- Python `s.find(c)`. -/
def pyFindChar (l : List Char) (c : Char) : Int :=
  pyFindCharAux l c 0

/-- Python `s.rfind(c)`: index of the last occurrence, `-1` if absent. -/
def pyRfindChar (l : List Char) (c : Char) : Int :=
  let i := pyFindChar l.reverse c
  if i < 0 then -1 else (l.length : Int) - 1 - i

/-- Python slice `l[a:b]` (step 1, possibly negative bounds). -/
def pySlice (l : List Char) (a b : Int) : List Char :=
  let n : Int := l.length
  let a' := if a < 0 then max (a + n) 0 else min a n
  let b' := if b < 0 then max (b + n) 0 else min b n
  (l.take b'.toNat).drop a'.toNat

/-- The substring `text[start:end + 1]` between the first `"\x7b"` and the
last `"\x7d"` of the reply, as the code extracts it before `json.loads`. -/
def extractBetweenBraces (text : String) : List Char :=
  pySlice text.data (pyFindChar text.data '\x7b') (pyRfindChar text.data '\x7d' + 1)

/-- Is this JSON value an object (a Python dict after `json.loads`)? -/
def isObj : Json → Bool
  | Json.obj _ => true
  | _ => false

/-- `gemini_generate_questions`. The external world is explicit:
`available` models `GEMINI_AVAILABLE` and `response` the outcome of
`model.generate_content(prompt).text` (`Except.error` when the call
throws). The body raises (`Except.error`) when the library is
unavailable; otherwise it extracts the text between the first `"\x7b"`
and the last `"\x7d"`, parses it with `json.loads`, and returns
`data.get("tech_questions", \x7b\x7d)` — one `try` block turns a parse
error, a thrown call, or the `AttributeError` from `.get` on a non-dict
into the raised generation error. `tech_list`, `position`, `years` and
`notes` only shape the outgoing prompt, which does not affect the result
for a fixed `response`. -/
def gemini_generate_questions (tech_list : List String)
    (position years notes : String) (available : Bool)
    (response : Except Unit String) : Except Unit Json :=
  if available = false then Except.error () else
  match response with
  | Except.error _ => Except.error ()
  | Except.ok text =>
    match parseJsonTop (extractBetweenBraces text) with
    | none => Except.error ()
    | some (Json.obj fields) =>
      Except.ok ((lookupVal "tech_questions" fields).getD (Json.obj []))
    | some _ => Except.error ()

/-- The deterministic question set rendered as the JSON-like value the
submission handler uses uniformly. -/
def detJson (techs : List String) : Json :=
  Json.obj ((deterministic_generate_questions techs 4).map
    (fun p => (p.1, Json.arr (p.2.map Json.str))))

/-- The `questions` value computed by the form-submission handler: the
`try` block calls the Gemini generator when `use_gemini` is checked, and
the `except` arm (as well as the unchecked-box arm) uses
`deterministic_generate_questions`. -/
def submissionQuestions (use_gemini : Bool) (available : Bool)
    (response : Except Unit String) (techs : List String)
    (position years notes : String) : Json :=
  if use_gemini then
    match gemini_generate_questions techs position years notes available response with
    | Except.ok q => q
    | Except.error _ => detJson techs
  else detJson techs

/-- Keep the first occurrence of each name not already seen, in order. -/
def dedupFrom (seen : List String) : List String → List String
  | [] => []
  | x :: xs => if x ∈ seen then dedupFrom seen xs else x :: dedupFrom (seen ++ [x]) xs

/-- The duplicate-free list of distinct names, first occurrences kept in
input order (the key order a Python dict comprehension produces). -/
def dedupFirst (l : List String) : List String :=
  dedupFrom [] l

theorem lookupVal_setKey_self {α : Type} (k : String) (v : α) (d : PyAssoc α) :
    lookupVal k (setKey k v d) = some v := by
  induction d with
  | nil => simp [setKey, lookupVal]
  | cons p rest ih =>
    by_cases h : p.1 = k
    · simp [setKey, h, lookupVal]
    · simp [setKey, h, lookupVal, ih]

theorem lookupVal_setKey_other {α : Type} {k k2 : String} (h : k ≠ k2) (v : α)
    (d : PyAssoc α) : lookupVal k (setKey k2 v d) = lookupVal k d := by
  induction d with
  | nil => simp [setKey, lookupVal, Ne.symm h]
  | cons p rest ih =>
    by_cases hp : p.1 = k2
    · simp [setKey, hp, lookupVal, Ne.symm h, ih]
    · by_cases hk : p.1 = k
      · simp [setKey, hp, lookupVal, hk, h]
      · simp [setKey, hp, lookupVal, hk, ih]

theorem goSplit_allspace (fuel : Nat) :
    ∀ (prevW : Bool) (acc l : List Char),
      (∀ c ∈ acc, isPySpace c = true) → (∀ c ∈ l, isPySpace c = true) →
      ∀ t ∈ goSplit fuel prevW acc l, ∀ c ∈ t, isPySpace c = true := by
  induction fuel with
  | zero =>
    intro prevW acc l hacc _ t ht c hc
    simp only [goSplit, List.mem_singleton] at ht
    exact hacc c (List.mem_reverse.mp (ht ▸ hc))
  | succ fuel ih =>
    intro prevW acc l hacc hl t ht c hc
    cases l with
    | nil =>
      simp only [goSplit, List.mem_singleton] at ht
      exact hacc c (List.mem_reverse.mp (ht ▸ hc))
    | cons c0 cs =>
      have hc0 : isPySpace c0 = true := hl c0 (List.mem_cons_self _ _)
      have hcs : ∀ x ∈ cs, isPySpace x = true := fun x hx => hl x (List.mem_cons_of_mem _ hx)
      have hacc' : ∀ x ∈ c0 :: acc, isPySpace x = true := by
        intro x hx
        rcases List.mem_cons.mp hx with rfl | hx
        · exact hc0
        · exact hacc x hx
      simp only [goSplit] at ht
      split at ht
      · rcases List.mem_cons.mp ht with rfl | hmem
        · exact hacc c (List.mem_reverse.mp hc)
        · exact ih false [] _ (by simp)
            (fun x hx => hcs x ((List.dropWhile_sublist _).subset hx)) t hmem c hc
      · split at ht
        · rename_i c2 c3 cs3
          have hcs3 : ∀ x ∈ cs3, isPySpace x = true := fun x hx =>
            hcs x (List.mem_cons_of_mem _ (List.mem_cons_of_mem _ hx))
          split at ht
          · rcases List.mem_cons.mp ht with rfl | hmem
            · exact hacc c (List.mem_reverse.mp hc)
            · exact ih true [] cs3 (by simp) hcs3 t hmem c hc
          · exact ih _ _ _ hacc' hcs t ht c hc
        · exact ih _ _ _ hacc' hcs t ht c hc

theorem pyStrip_eq_nil {t : List Char} (h : ∀ c ∈ t, isPySpace c = true) :
    pyStrip t = [] := by
  unfold pyStrip
  rw [List.dropWhile_eq_nil_iff.mpr h]
  simp

/-- Claim C2: `split_tech_stack` splits on the delimiters and the word
`"and"` and returns the non-empty trimmed tokens in order, duplicates
kept; the spec's concrete examples hold, and the empty string or any
whitespace-only string yields `[]`. -/
theorem claim_split_tech_stack :
    split_tech_stack "Python, Django/React and SQL" = ["Python", "Django", "React", "SQL"] ∧
    split_tech_stack "" = [] ∧
    split_tech_stack "SQL, SQL" = ["SQL", "SQL"] ∧
    (∀ s : String, (∀ c ∈ s.data, isPySpace c = true) → split_tech_stack s = []) ∧
    (∀ s t : String, t ∈ split_tech_stack s → t ≠ "") := by
  refine ⟨by decide, by decide, by decide, ?_, ?_⟩
  · intro s hs
    unfold split_tech_stack
    rw [List.filter_eq_nil_iff]
    intro x hx
    obtain ⟨t, ht, rfl⟩ := List.mem_map.mp hx
    have htok : ∀ c ∈ t, isPySpace c = true :=
      goSplit_allspace (s.data.length + 1) false [] s.data (by simp) hs t ht
    simp [pyStrip_eq_nil htok]
  · intro s t ht
    have hp := List.of_mem_filter ht
    simpa using hp

theorem claim_split_tech_stack_witness :
    split_tech_stack " \t " = [] ∧ ("Python" : String) ≠ "" :=
  ⟨claim_split_tech_stack.2.2.2.1 " \t " (by decide),
   claim_split_tech_stack.2.2.2.2 "Python" "Python" (by decide)⟩

/-- Claim C3: the fallback bank matches the technology case-insensitively
by substring against the fixed ordered keys with the first match winning
(`"python sql"` contains both `python` and `sql` and resolves to the
python questions), returns at most `n` questions, returns exactly the 4
predefined Python questions for `"Python"`, and for the unknown `"Rust"`
returns the 4 generic questions, each containing `"Rust"` verbatim. The
function is total, so it never fails. -/
theorem claim_fallback_bank :
    (∀ (tech : String) (n : Nat), (fallback_generate_for_tech tech n).length ≤ n) ∧
    fallback_generate_for_tech "Python" 4 =
      ["Explain the difference between list and tuple in Python.",
       "How does Python’s garbage collection work?",
       "Write a simple function to remove duplicates from a list.",
       "Explain how to profile and optimize Python code."] ∧
    fallback_generate_for_tech "Rust" 4 = genericQuestions "Rust" ∧
    (∀ q ∈ fallback_generate_for_tech "Rust" 4, listHasSub "Rust".data q.data = true) ∧
    fallback_generate_for_tech "python sql" 4 = fallback_generate_for_tech "Python" 4 ∧
    (fallback_generate_for_tech "AWS" 4).length = 3 := by
  refine ⟨?_, by decide, by decide, by decide, by decide, by decide⟩
  intro tech n
  unfold fallback_generate_for_tech
  split
  · simp [List.length_take]
  · simp [List.length_take]

theorem claim_fallback_bank_witness :
    "What are the main components of Rust?" ∈ fallback_generate_for_tech "Rust" 4 ∧
    listHasSub "Rust".data ("What are the main components of Rust?" : String).data = true :=
  ⟨by decide,
   claim_fallback_bank.2.2.2.1 "What are the main components of Rust?" (by decide)⟩

/-- Claim C5: `handle_followup` classifies in fixed priority order:
any input containing `"regenerate"` yields the regenerated-questions
listing (so `"regenerate and then exit"` does not reach the farewell
branch), and input matching none of the three commands yields exactly the
fixed help message. -/
theorem claim_followup_priority :
    (∀ (st : SessionState) (text : String),
      listHasSub "regenerate".data (pyLower text).data = true →
      (handle_followup st text).1 = regenListing st) ∧
    (∀ (st : SessionState) (text : String),
      listHasSub "regenerate".data (pyLower text).data = false →
      listHasSub "show my info".data (pyLower text).data = false →
      END_KEYWORDS.any (fun k => listHasSub k.data (pyLower text).data) = false →
      (handle_followup st text).1 = helpMessage) ∧
    (handle_followup ⟨[("tech_stack_raw", "Python")], []⟩ "regenerate and then exit").1 =
      regenListing ⟨[("tech_stack_raw", "Python")], []⟩ ∧
    (handle_followup ⟨[("tech_stack_raw", "Python")], []⟩ "regenerate and then exit").1 ≠
      farewellMessage ∧
    (∀ st : SessionState, (handle_followup st "hello").1 = helpMessage) := by
  refine ⟨?_, ?_, by decide, by decide, fun st => rfl⟩
  · intro st text h
    simp [handle_followup, h]
  · intro st text h1 h2 h3
    simp [handle_followup, h1, h2, h3]

theorem claim_followup_priority_witness :
    (handle_followup ⟨[], []⟩ "please regenerate now").1 = regenListing ⟨[], []⟩ ∧
    (handle_followup ⟨[], []⟩ "anything else?").1 = helpMessage :=
  ⟨claim_followup_priority.1 ⟨[], []⟩ "please regenerate now" (by decide),
   claim_followup_priority.2.1 ⟨[], []⟩ "anything else?" (by decide) (by decide) (by decide)⟩

/-- Claim C8: on input containing `"show my info"` (and not
`"regenerate"`), the handler returns the session's candidate record
formatted by `json.dumps` with `email` and `phone` replaced by `"***"` —
a marker distinct from the store's `"***redacted***"` — and leaves the
stored record (the session state) unchanged. -/
theorem claim_show_my_info :
    (∀ (st : SessionState) (text : String),
      listHasSub "regenerate".data (pyLower text).data = false →
      listHasSub "show my info".data (pyLower text).data = true →
      (handle_followup st text).1 =
        pyDumpsIndent2 (setKey "phone" "***" (setKey "email" "***" st.candidate_info)) ∧
      (handle_followup st text).2 = st ∧
      lookupVal "email" (setKey "phone" "***" (setKey "email" "***" st.candidate_info)) =
        some "***" ∧
      lookupVal "phone" (setKey "phone" "***" (setKey "email" "***" st.candidate_info)) =
        some "***") ∧
    ("***" : String) ≠ "***redacted***" := by
  refine ⟨?_, by decide⟩
  intro st text h1 h2
  refine ⟨?_, ?_, ?_, lookupVal_setKey_self _ _ _⟩
  · simp [handle_followup, h1, h2]
  · simp [handle_followup, h1, h2]
  · rw [lookupVal_setKey_other (by decide), lookupVal_setKey_self]

theorem claim_show_my_info_witness :
    ((handle_followup ⟨[("name", "Ada"), ("email", "a@b.c"), ("phone", "123")], []⟩
        "Show my info").1 =
      pyDumpsIndent2 (setKey "phone" "***" (setKey "email" "***"
        [("name", "Ada"), ("email", "a@b.c"), ("phone", "123")])) ∧
    (handle_followup ⟨[("name", "Ada"), ("email", "a@b.c"), ("phone", "123")], []⟩
        "Show my info").2 =
      ⟨[("name", "Ada"), ("email", "a@b.c"), ("phone", "123")], []⟩ ∧
    lookupVal "email" (setKey "phone" "***" (setKey "email" "***"
        [("name", "Ada"), ("email", "a@b.c"), ("phone", "123")])) = some "***" ∧
    lookupVal "phone" (setKey "phone" "***" (setKey "email" "***"
        [("name", "Ada"), ("email", "a@b.c"), ("phone", "123")])) = some "***") ∧
    ("***" : String) ≠ "***redacted***" :=
  ⟨claim_show_my_info.1 ⟨[("name", "Ada"), ("email", "a@b.c"), ("phone", "123")], []⟩
      "Show my info" (by decide) (by decide),
   claim_show_my_info.2⟩

/-- Claim C1: `anonymize_candidate` returns a record whose `email` and
`phone` fields both equal `"***redacted***"` whatever their input values
(or absence), and every other field is unchanged. The Python code mutates
only the fresh `candidate.copy()`; the embedding is pure, so the input
record is left unchanged by construction. -/
theorem claim_anonymize_redacts (c : PyDict) :
    lookupVal "email" (anonymize_candidate c) = some "***redacted***" ∧
    lookupVal "phone" (anonymize_candidate c) = some "***redacted***" ∧
    ∀ k : String, k ≠ "email" → k ≠ "phone" →
      lookupVal k (anonymize_candidate c) = lookupVal k c := by
  unfold anonymize_candidate
  refine ⟨?_, lookupVal_setKey_self _ _ _, ?_⟩
  · rw [lookupVal_setKey_other (by decide), lookupVal_setKey_self]
  · intro k hke hkp
    rw [lookupVal_setKey_other hkp, lookupVal_setKey_other hke]

theorem claim_anonymize_redacts_witness :
    ("name" : String) ≠ "email" ∧ ("name" : String) ≠ "phone" ∧
    lookupVal "name"
        (anonymize_candidate [("name", "Ada"), ("email", "a@b"), ("phone", "1")]) =
      lookupVal "name" [("name", "Ada"), ("email", "a@b"), ("phone", "1")] :=
  ⟨by decide, by decide,
    (claim_anonymize_redacts [("name", "Ada"), ("email", "a@b"), ("phone", "1")]).2.2
      "name" (by decide) (by decide)⟩

theorem saveAll_valid (ps : List (PyDict × String)) :
    ∀ l : List SavedRecord,
      saveAll ps (some (FileContent.valid l)) =
        some (FileContent.valid
          (l ++ ps.map (fun p => ⟨p.2 ++ "Z", anonymize_candidate p.1⟩))) := by
  induction ps with
  | nil => intro l; simp [saveAll]
  | cons p ps ih =>
    intro l
    have hstep : save_simulated p.1 p.2 (some (FileContent.valid l)) =
        some (FileContent.valid (l ++ [⟨p.2 ++ "Z", anonymize_candidate p.1⟩])) := rfl
    calc saveAll (p :: ps) (some (FileContent.valid l))
        = saveAll ps (save_simulated p.1 p.2 (some (FileContent.valid l))) := by
          simp [saveAll]
      _ = saveAll ps (some (FileContent.valid
            (l ++ [⟨p.2 ++ "Z", anonymize_candidate p.1⟩]))) := by rw [hstep]
      _ = _ := by rw [ih]; simp

theorem timestamp_endsZ (t : String) : (t ++ "Z").data.getLast? = some 'Z' := by
  rw [String.data_append]
  exact List.getLast?_concat _

/-- Claim C6: saving N records sequentially from an empty or absent store
yields a valid persisted list of exactly the N wrapped records in save
order, each timestamped with the observed `utcnow().isoformat()` string
plus a trailing `"Z"` and containing the anonymized record. (From an
absent store at least one save must happen for a list to exist at all.) -/
theorem claim_save_sequential :
    (∀ ps : List (PyDict × String),
      saveAll ps (some (FileContent.valid [])) =
        some (FileContent.valid
          (ps.map (fun p => ⟨p.2 ++ "Z", anonymize_candidate p.1⟩)))) ∧
    (∀ ps : List (PyDict × String), ps ≠ [] →
      saveAll ps none =
        some (FileContent.valid
          (ps.map (fun p => ⟨p.2 ++ "Z", anonymize_candidate p.1⟩)))) ∧
    (∀ ps : List (PyDict × String),
      (ps.map (fun p => (⟨p.2 ++ "Z", anonymize_candidate p.1⟩ : SavedRecord))).length =
        ps.length) ∧
    (∀ (ps : List (PyDict × String)) (e : SavedRecord),
      e ∈ ps.map (fun p => (⟨p.2 ++ "Z", anonymize_candidate p.1⟩ : SavedRecord)) →
      e.timestamp.data.getLast? = some 'Z') := by
  refine ⟨?_, ?_, ?_, ?_⟩
  · intro ps
    simpa using saveAll_valid ps []
  · intro ps hne
    cases ps with
    | nil => exact absurd rfl hne
    | cons p ps =>
      have hstep : save_simulated p.1 p.2 none =
          some (FileContent.valid [⟨p.2 ++ "Z", anonymize_candidate p.1⟩]) := rfl
      calc saveAll (p :: ps) none
          = saveAll ps (save_simulated p.1 p.2 none) := by simp [saveAll]
        _ = saveAll ps (some (FileContent.valid
              [⟨p.2 ++ "Z", anonymize_candidate p.1⟩])) := by rw [hstep]
        _ = _ := by rw [saveAll_valid]; simp
  · intro ps
    simp
  · intro ps e he
    obtain ⟨p, _, rfl⟩ := List.mem_map.mp he
    exact timestamp_endsZ p.2

theorem claim_save_sequential_witness :
    ([(([("email", "e")] : PyDict), "2024-01-01T00:00:00")] :
        List (PyDict × String)) ≠ [] ∧
    saveAll [(([("email", "e")] : PyDict), "2024-01-01T00:00:00")] none =
      some (FileContent.valid
        [⟨"2024-01-01T00:00:00" ++ "Z",
          anonymize_candidate [("email", "e")]⟩]) :=
  ⟨by decide,
   claim_save_sequential.2.1 [(([("email", "e")] : PyDict), "2024-01-01T00:00:00")]
     (by decide)⟩

/-- Claim C7: when the store file is missing or unreadable as JSON, a
save treats the store as empty and succeeds (the embedding of
`save_simulated` is total — no error outcome exists), leaving exactly the
one newly saved record. -/
theorem claim_save_missing_or_corrupt (c : PyDict) (now : String) :
    save_simulated c now none =
      some (FileContent.valid [⟨now ++ "Z", anonymize_candidate c⟩]) ∧
    save_simulated c now (some FileContent.corrupt) =
      some (FileContent.valid [⟨now ++ "Z", anonymize_candidate c⟩]) :=
  ⟨rfl, rfl⟩

/-- Claim C10: `anonymize_candidate` sets `email` and `phone`
unconditionally, so even a record lacking them entirely comes back with
both fields equal to `"***redacted***"`. -/
theorem claim_anonymize_adds_fields :
    (∀ c : PyDict,
      lookupVal "email" (anonymize_candidate c) = some "***redacted***" ∧
      lookupVal "phone" (anonymize_candidate c) = some "***redacted***") ∧
    anonymize_candidate [] = [("email", "***redacted***"), ("phone", "***redacted***")] := by
  refine ⟨fun c => ⟨?_, ?_⟩, by decide⟩
  · unfold anonymize_candidate
    rw [lookupVal_setKey_other (by decide), lookupVal_setKey_self]
  · exact lookupVal_setKey_self _ _ _


theorem setKey_map_self (f : String → List String) (x : String) (s : List String) :
    setKey x (f x) (s.map (fun t => (t, f t))) =
      if x ∈ s then s.map (fun t => (t, f t))
      else s.map (fun t => (t, f t)) ++ [(x, f x)] := by
  induction s with
  | nil => simp [setKey]
  | cons t ts ih =>
    by_cases h : t = x
    · subst h
      simp [setKey]
    · have h' : ¬ x = t := fun he => h he.symm
      by_cases hm : x ∈ ts
      · simp [setKey, h, h', ih, hm]
      · simp [setKey, h, h', ih, hm]

theorem det_foldl (f : String → List String) :
    ∀ (l s : List String),
      l.foldl (fun d t => setKey t (f t) d) (s.map (fun t => (t, f t))) =
        (s ++ dedupFrom s l).map (fun t => (t, f t)) := by
  intro l
  induction l with
  | nil => intro s; simp [dedupFrom]
  | cons x xs ih =>
    intro s
    rw [List.foldl_cons, setKey_map_self]
    by_cases hm : x ∈ s
    · rw [if_pos hm, ih]
      simp [dedupFrom, hm]
    · rw [if_neg hm]
      have hmap : s.map (fun t => (t, f t)) ++ [(x, f x)] =
          (s ++ [x]).map (fun t => (t, f t)) := by simp
      rw [hmap, ih (s ++ [x])]
      simp [dedupFrom, hm]

theorem det_eq_map (tech_list : List String) (n : Nat) :
    deterministic_generate_questions tech_list n =
      (dedupFirst tech_list).map (fun t => (t, fallback_generate_for_tech t n)) := by
  have h := det_foldl (fun t => fallback_generate_for_tech t n) tech_list []
  simpa [deterministic_generate_questions, dedupFirst] using h

theorem dedupFrom_not_mem_seen :
    ∀ (l seen : List String) (x : String), x ∈ dedupFrom seen l → x ∉ seen := by
  intro l
  induction l with
  | nil => intro seen x hx; simp [dedupFrom] at hx
  | cons y ys ih =>
    intro seen x hx
    by_cases hm : y ∈ seen
    · simp only [dedupFrom, if_pos hm] at hx
      exact ih seen x hx
    · simp only [dedupFrom, if_neg hm, List.mem_cons] at hx
      rcases hx with rfl | hx
      · exact hm
      · intro hs
        exact ih (seen ++ [y]) x hx (List.mem_append_left _ hs)

theorem dedupFrom_nodup : ∀ (l seen : List String), (dedupFrom seen l).Nodup := by
  intro l
  induction l with
  | nil => intro seen; simp [dedupFrom]
  | cons y ys ih =>
    intro seen
    by_cases hm : y ∈ seen
    · simp only [dedupFrom, if_pos hm]
      exact ih seen
    · simp only [dedupFrom, if_neg hm]
      refine List.nodup_cons.mpr ⟨?_, ih _⟩
      intro hy
      exact dedupFrom_not_mem_seen ys (seen ++ [y]) y hy
        (List.mem_append_right _ (by simp))

theorem dedupFrom_id :
    ∀ (l seen : List String), l.Nodup → (∀ x ∈ l, x ∉ seen) → dedupFrom seen l = l := by
  intro l
  induction l with
  | nil => intro seen _ _; simp [dedupFrom]
  | cons y ys ih =>
    intro seen hnd hdisj
    have hm : y ∉ seen := hdisj y (List.mem_cons_self _ _)
    simp only [dedupFrom, if_neg hm]
    rw [ih (seen ++ [y]) (List.nodup_cons.mp hnd).2]
    intro x hx hmem
    rcases List.mem_append.mp hmem with h1 | h2
    · exact hdisj x (List.mem_cons_of_mem _ hx) h1
    · have hxy : x = y := by simpa using h2
      exact (List.nodup_cons.mp hnd).1 (hxy ▸ hx)

theorem dedupFirst_idem (l : List String) : dedupFirst (dedupFirst l) = dedupFirst l :=
  dedupFrom_id (dedupFrom [] l) [] (dedupFrom_nodup l []) (by simp)

/-- Claim C9: the dict comprehension in `deterministic_generate_questions`
collapses duplicate technology names: its result equals its result on the
duplicate-free list of distinct names, and its keys are exactly the
distinct names, one entry each, in first-occurrence order. -/
theorem claim_deterministic_dedup (tech_list : List String) (n : Nat) :
    deterministic_generate_questions tech_list n =
      deterministic_generate_questions (dedupFirst tech_list) n ∧
    (deterministic_generate_questions tech_list n).map Prod.fst = dedupFirst tech_list ∧
    (dedupFirst tech_list).Nodup := by
  refine ⟨?_, ?_, dedupFrom_nodup tech_list []⟩
  · rw [det_eq_map, det_eq_map, dedupFirst_idem]
  · rw [det_eq_map]
    have : (Prod.fst ∘ fun t => (t, fallback_generate_for_tech t n)) = id := by
      funext t
      rfl
    rw [List.map_map, this, List.map_id]

/-- Counterexample to claim C4 as stated: a reply whose extracted
substring is valid JSON but lacks the `"tech_questions"` key does NOT
fail — `data.get("tech_questions", \x7b\x7d)` returns the empty mapping
and the function succeeds, so the caller does not fall back. -/
theorem claim_gemini_missing_key_cex :
    gemini_generate_questions [] "" "" "" true (Except.ok "\x7b\"a\": 1\x7d") =
      Except.ok (Json.obj []) ∧
    gemini_generate_questions [] "" "" "" true (Except.ok "\x7b\"a\": 1\x7d") ≠
      Except.error () := by
  refine ⟨rfl, ?_⟩
  intro h
  rw [show gemini_generate_questions [] "" "" "" true (Except.ok "\x7b\"a\": 1\x7d") =
      Except.ok (Json.obj []) from rfl] at h
  exact Except.noConfusion h

/-- Claim C4 as amended: the generator fails exactly when the client
library is unavailable, the external call throws, or the substring
between the first `"\x7b"` and the last `"\x7d"` is not valid JSON (or
not a JSON object, in which case `.get` raises inside the same `try`);
when the substring parses to an object lacking `"tech_questions"` the
function instead succeeds with the empty mapping. In every genuine
failure case the submission handler falls back to the deterministic
generator, and on success it uses the returned value. -/
theorem claim_gemini_failure_amended :
    (∀ (techs : List String) (position years notes : String) (resp : Except Unit String),
      gemini_generate_questions techs position years notes false resp = Except.error ()) ∧
    (∀ (techs : List String) (position years notes : String),
      gemini_generate_questions techs position years notes true (Except.error ()) =
        Except.error ()) ∧
    (∀ (techs : List String) (position years notes text : String),
      parseJsonTop (extractBetweenBraces text) = none →
      gemini_generate_questions techs position years notes true (Except.ok text) =
        Except.error ()) ∧
    (∀ (techs : List String) (position years notes text : String) (v : Json),
      parseJsonTop (extractBetweenBraces text) = some v → isObj v = false →
      gemini_generate_questions techs position years notes true (Except.ok text) =
        Except.error ()) ∧
    (∀ (techs : List String) (position years notes text : String)
        (fields : List (String × Json)),
      parseJsonTop (extractBetweenBraces text) = some (Json.obj fields) →
      lookupVal "tech_questions" fields = none →
      gemini_generate_questions techs position years notes true (Except.ok text) =
        Except.ok (Json.obj [])) ∧
    (∀ (techs : List String) (position years notes : String) (avail : Bool)
        (resp : Except Unit String),
      gemini_generate_questions techs position years notes avail resp = Except.error () →
      submissionQuestions true avail resp techs position years notes = detJson techs) ∧
    (∀ (techs : List String) (position years notes : String) (avail : Bool)
        (resp : Except Unit String) (v : Json),
      gemini_generate_questions techs position years notes avail resp = Except.ok v →
      submissionQuestions true avail resp techs position years notes = v) := by
  refine ⟨?_, ?_, ?_, ?_, ?_, ?_, ?_⟩
  · intro techs position years notes resp
    simp [gemini_generate_questions]
  · intro techs position years notes
    rfl
  · intro techs position years notes text h
    simp [gemini_generate_questions, h]
  · intro techs position years notes text v h hv
    cases v with
    | obj fields => simp [isObj] at hv
    | null => simp [gemini_generate_questions, h]
    | boolean b => simp [gemini_generate_questions, h]
    | int n => simp [gemini_generate_questions, h]
    | str s => simp [gemini_generate_questions, h]
    | arr xs => simp [gemini_generate_questions, h]
  · intro techs position years notes text fields h hlk
    simp [gemini_generate_questions, h, hlk]
  · intro techs position years notes avail resp h
    simp [submissionQuestions, h]
  · intro techs position years notes avail resp v h
    simp [submissionQuestions, h]

theorem claim_gemini_failure_amended_witness :
    parseJsonTop (extractBetweenBraces "no braces here") = none ∧
    gemini_generate_questions [] "" "" "" true (Except.ok "no braces here") =
      Except.error () ∧
    parseJsonTop (extractBetweenBraces "\x7b\"a\": 1\x7d") =
      some (Json.obj [("a", Json.int 1)]) ∧
    gemini_generate_questions [] "" "" "" true (Except.ok "\x7b\"a\": 1\x7d") =
      Except.ok (Json.obj []) ∧
    submissionQuestions true false (Except.ok "x") [] "" "" "" = detJson [] ∧
    submissionQuestions true true (Except.ok "\x7b\"tech_questions\": [\"q\"]\x7d")
      [] "" "" "" = Json.arr [Json.str "q"] :=
  ⟨rfl,
   claim_gemini_failure_amended.2.2.1 [] "" "" "" "no braces here" rfl,
   rfl,
   claim_gemini_failure_amended.2.2.2.2.1 [] "" "" "" "\x7b\"a\": 1\x7d"
     [("a", Json.int 1)] rfl rfl,
   claim_gemini_failure_amended.2.2.2.2.2.1 [] "" "" "" false (Except.ok "x") rfl,
   claim_gemini_failure_amended.2.2.2.2.2.2 [] "" "" "" true
     (Except.ok "\x7b\"tech_questions\": [\"q\"]\x7d") (Json.arr [Json.str "q"]) rfl⟩
